import Mathlib

/-!
Verification of the aria_shell process-orchestration core against its
specification.  The definitions below are shallow embeddings of the C++
sources (`src/job/job_state.{hpp,cpp}`, `src/job/stream_controller.cpp`,
`src/hexstream/process.cpp`): pure C++ functions become Lean functions,
`size_t` arithmetic is `Nat` with explicit `% 2^64` wherever the C++
computation could wrap, file descriptors are `Int` (negative = closed),
and byte buffers are `List Nat`.
-/

namespace AriaShell

/-! ## Job state machine (inc/job/job_state.hpp, job_state.cpp) -/

/-- `enum class JobState` from `inc/job/job_state.hpp`. -/
inductive JobState where
  | NONE
  | FOREGROUND
  | BACKGROUND
  | STOPPED
  | TERMINATED
  deriving DecidableEq, Repr, Fintype

/-- `enum class JobEvent` from `inc/job/job_state.hpp`. -/
inductive JobEvent where
  | SPAWN
  | SPAWN_BG
  | CTRL_C
  | CTRL_Z
  | FG_CMD
  | BG_CMD
  | CHILD_EXIT
  | CHILD_STOP
  | TTY_READ
  | TIMEOUT
  | ERROR
  deriving DecidableEq, Repr, Fintype

/-- `struct TransitionResult` from `inc/job/job_state.hpp`. -/
structure TransitionResult where
  valid : Bool
  newState : JobState
  error : String
  deriving DecidableEq, Repr

/-- `TransitionResult::ok`. -/
def TransitionResult.ok (s : JobState) : TransitionResult :=
  { valid := true, newState := s, error := "" }

/-- `TransitionResult::fail`. -/
def TransitionResult.fail (msg : String) : TransitionResult :=
  { valid := false, newState := JobState.NONE, error := msg }

/-- `StateMachine::transition` from `src/job/job_state.cpp`, translated
switch-by-switch. -/
def StateMachine.transition (current : JobState) (event : JobEvent) :
    TransitionResult :=
  match current with
  | JobState.NONE =>
    match event with
    | JobEvent.SPAWN => TransitionResult.ok JobState.FOREGROUND
    | JobEvent.SPAWN_BG => TransitionResult.ok JobState.BACKGROUND
    | _ => TransitionResult.fail "Invalid event for NONE state"
  | JobState.FOREGROUND =>
    match event with
    | JobEvent.CTRL_Z => TransitionResult.ok JobState.STOPPED
    | JobEvent.CTRL_C => TransitionResult.ok JobState.TERMINATED
    | JobEvent.CHILD_EXIT => TransitionResult.ok JobState.TERMINATED
    | JobEvent.CHILD_STOP => TransitionResult.ok JobState.STOPPED
    | JobEvent.ERROR => TransitionResult.ok JobState.TERMINATED
    | _ => TransitionResult.fail "Invalid event for FOREGROUND state"
  | JobState.BACKGROUND =>
    match event with
    | JobEvent.FG_CMD => TransitionResult.ok JobState.FOREGROUND
    | JobEvent.BG_CMD => TransitionResult.ok JobState.BACKGROUND
    | JobEvent.CHILD_EXIT => TransitionResult.ok JobState.TERMINATED
    | JobEvent.CHILD_STOP => TransitionResult.ok JobState.STOPPED
    | JobEvent.TTY_READ => TransitionResult.ok JobState.STOPPED
    | JobEvent.ERROR => TransitionResult.ok JobState.TERMINATED
    | _ => TransitionResult.fail "Invalid event for BACKGROUND state"
  | JobState.STOPPED =>
    match event with
    | JobEvent.FG_CMD => TransitionResult.ok JobState.FOREGROUND
    | JobEvent.BG_CMD => TransitionResult.ok JobState.BACKGROUND
    | JobEvent.CTRL_C => TransitionResult.ok JobState.TERMINATED
    | JobEvent.CHILD_EXIT => TransitionResult.ok JobState.TERMINATED
    | JobEvent.ERROR => TransitionResult.ok JobState.TERMINATED
    | _ => TransitionResult.fail "Invalid event for STOPPED state"
  | JobState.TERMINATED => TransitionResult.fail "Job already terminated"

/-- The transition table of spec §4.G, written from the spec's words: for
each (state, event) pair over the ten event columns of the table, `some s`
is the table's target state and `none` is a "—" cell.  (`TIMEOUT` is not a
column of the table.)  This is the spec-side definition to be compared
against `StateMachine.transition`. -/
def specTransitionTable (s : JobState) (e : JobEvent) : Option JobState :=
  match s, e with
  | JobState.NONE, JobEvent.SPAWN => some JobState.FOREGROUND
  | JobState.NONE, JobEvent.SPAWN_BG => some JobState.BACKGROUND
  | JobState.FOREGROUND, JobEvent.CTRL_C => some JobState.TERMINATED
  | JobState.FOREGROUND, JobEvent.CTRL_Z => some JobState.STOPPED
  | JobState.FOREGROUND, JobEvent.CHILD_EXIT => some JobState.TERMINATED
  | JobState.FOREGROUND, JobEvent.CHILD_STOP => some JobState.STOPPED
  | JobState.FOREGROUND, JobEvent.ERROR => some JobState.TERMINATED
  | JobState.BACKGROUND, JobEvent.FG_CMD => some JobState.FOREGROUND
  | JobState.BACKGROUND, JobEvent.BG_CMD => some JobState.BACKGROUND
  | JobState.BACKGROUND, JobEvent.CHILD_EXIT => some JobState.TERMINATED
  | JobState.BACKGROUND, JobEvent.CHILD_STOP => some JobState.STOPPED
  | JobState.BACKGROUND, JobEvent.TTY_READ => some JobState.STOPPED
  | JobState.BACKGROUND, JobEvent.ERROR => some JobState.TERMINATED
  | JobState.STOPPED, JobEvent.CTRL_C => some JobState.TERMINATED
  | JobState.STOPPED, JobEvent.FG_CMD => some JobState.FOREGROUND
  | JobState.STOPPED, JobEvent.BG_CMD => some JobState.BACKGROUND
  | JobState.STOPPED, JobEvent.CHILD_EXIT => some JobState.TERMINATED
  | JobState.STOPPED, JobEvent.ERROR => some JobState.TERMINATED
  | _, _ => none

/-! ## Ring buffer (src/unnamed/part_002, `RingBuffer`)

All sizes in the C++ are `size_t`; we embed them as `Nat` and make the
possible 64-bit wraps explicit with `sizeSub` / `% 2^64`. -/

/-- 64-bit `size_t` subtraction `a - b` (wraps modulo `2^64`).  Faithful
to C++ for `a, b < 2^64`. -/
def sizeSub (a b : Nat) : Nat := (a + 2 ^ 64 - b) % 2 ^ 64

/-- The fields of `class RingBuffer`: byte storage, the two positions and
the capacity.  The atomics only matter for cross-thread visibility, which
a sequential embedding does not model. -/
structure RingBuffer where
  buffer : List Nat
  readPos : Nat
  writePos : Nat
  capacity : Nat
  deriving Repr, DecidableEq

/-- `RingBuffer::RingBuffer(size_t cap)`: `buffer(cap)` value-initialises
`cap` zero bytes; both positions start at 0. -/
def RingBuffer.init (cap : Nat) : RingBuffer :=
  { buffer := List.replicate cap 0, readPos := 0, writePos := 0,
    capacity := cap }

/-- `RingBuffer::available`:
`(w >= r) ? (w - r) : (capacity - r + w)` in `size_t` arithmetic. -/
def RingBuffer.available (rb : RingBuffer) : Nat :=
  if rb.readPos ≤ rb.writePos then rb.writePos - rb.readPos
  else (sizeSub rb.capacity rb.readPos + rb.writePos) % 2 ^ 64

/-- `RingBuffer::freeSpace`: `capacity - available() - 1` in `size_t`
arithmetic (one slot reserved to distinguish full from empty). -/
def RingBuffer.freeSpace (rb : RingBuffer) : Nat :=
  sizeSub (sizeSub rb.capacity rb.available) 1

/-- `RingBuffer::empty`: `available() == 0`. -/
def RingBuffer.isEmpty (rb : RingBuffer) : Bool :=
  rb.available == 0

/-- `memcpy(dst + pos, src, src.length)` on a byte array viewed as a
list; faithful to the C++ when `pos + src.length ≤ dst.length` (the only
situations in which the source performs the copy). -/
def copyInto (dst : List Nat) (pos : Nat) (src : List Nat) : List Nat :=
  dst.take pos ++ src ++ dst.drop (pos + src.length)

/-- `RingBuffer::write(data, size)`: accepts `min(size, freeSpace())`
bytes, copies them in at most two parts around the wrap, advances
`writePos` modulo the capacity, and returns the count accepted. -/
def RingBuffer.write (rb : RingBuffer) (data : List Nat) :
    RingBuffer × Nat :=
  let free := rb.freeSpace
  let toWrite := min data.length free
  if toWrite = 0 then (rb, 0)
  else
    let wpos := rb.writePos
    let firstPart := min toWrite (sizeSub rb.capacity wpos)
    let buf1 := copyInto rb.buffer wpos (data.take firstPart)
    let buf2 :=
      if firstPart < toWrite then
        copyInto buf1 0 ((data.drop firstPart).take (toWrite - firstPart))
      else buf1
    ({ rb with buffer := buf2,
               writePos := (wpos + toWrite) % 2 ^ 64 % rb.capacity },
     toWrite)

/-- `RingBuffer::read(data, maxSize)`: yields `min(maxSize, available())`
bytes read in at most two parts around the wrap, advancing `readPos`
modulo the capacity.  The bytes copied out into the caller's buffer are
returned as a list. -/
def RingBuffer.read (rb : RingBuffer) (maxSize : Nat) :
    RingBuffer × List Nat :=
  let avail := rb.available
  let toRead := min maxSize avail
  if toRead = 0 then (rb, [])
  else
    let rpos := rb.readPos
    let firstPart := min toRead (sizeSub rb.capacity rpos)
    let part1 := (rb.buffer.drop rpos).take firstPart
    let part2 :=
      if firstPart < toRead then rb.buffer.take (toRead - firstPart)
      else []
    ({ rb with readPos := (rpos + toRead) % 2 ^ 64 % rb.capacity },
     part1 ++ part2)

/-- Well-formedness of a ring state: positions in range, a positive
capacity small enough that no `size_t` addition in the source can wrap
(all capacities in the repository are ≤ 1 MiB), and storage of exactly
`capacity` bytes.  It holds of every buffer the source constructs and is
preserved by `write` and `read`. -/
def RingBuffer.WF (rb : RingBuffer) : Prop :=
  rb.readPos < rb.capacity ∧ rb.writePos < rb.capacity ∧
    0 < rb.capacity ∧ rb.capacity < 2 ^ 63 ∧
    rb.buffer.length = rb.capacity

/-- Total length of a list of byte chunks. -/
def sumLens (chunks : List (List Nat)) : Nat :=
  (chunks.map List.length).sum

/-- Successive `RingBuffer::write` calls with no intervening reads
(the producer side of a drainer whose consumer is idle): returns the
final ring and the total number of bytes accepted. -/
def RingBuffer.writeAll (rb : RingBuffer) (chunks : List (List Nat)) :
    RingBuffer × Nat :=
  chunks.foldl
    (fun acc chunk =>
      let r := acc.1.write chunk
      (r.1, acc.2 + r.2))
    (rb, 0)

/-! ## Stream controller (src/unnamed/part_002) -/

/-- `StreamController::StreamController()` allocates one ring buffer per
stream index (`StreamIndex::COUNT` = 6), each with capacity
`1024 * 1024`. -/
def streamControllerBuffers : List RingBuffer :=
  List.replicate 6 (RingBuffer.init (1024 * 1024))

/-- `StreamController::createPipes` stores, for pipe `i` in 0..5,
`pipefd[0]` (the read end) at `fds[i * 2]`. -/
def pipeReadEnd (i : Nat) : Nat := i * 2

/-- `StreamController::createPipes` stores, for pipe `i` in 0..5,
`pipefd[1]` (the write end) at `fds[i * 2 + 1]`. -/
def pipeWriteEnd (i : Nat) : Nat := i * 2 + 1

/-- `StreamController::setupChild` (src/unnamed/part_002), as the ordered
sequence of its `dup2(pipes.fds[src], target)` calls: pairs
`(src index into fds, target logical descriptor)`. -/
def setupChildDup2Calls : List (Nat × Nat) :=
  [(1, 0), (3, 1), (5, 2), (7, 3), (9, 4), (11, 5)]

/-- The `fds` index that `setupChild` duplicates onto logical descriptor
`i` (read off the same six `dup2` calls). -/
def setupChildSrc (i : Nat) : Nat :=
  match i with
  | 0 => 1
  | 1 => 3
  | 2 => 5
  | 3 => 7
  | 4 => 9
  | _ => 11

/-- The loop ending `setupChild`: for each of the 12 slots, a still-open
original descriptor (`fds[i] >= 0`) is `::close`d.  Applied to the
kernel open/closed status of each slot's original descriptor (`true` =
open), it returns the statuses after the loop. -/
def setupChildCloseLoop (origOpen : List Bool) : List Bool :=
  origOpen.map (fun o => if o then false else o)

/-- `HexStreamPipes::isValid` (POSIX branch):
`fds[0] >= 0 && fds[2] >= 0 && fds[4] >= 0`. -/
def hexStreamPipesIsValid (fds : Fin 12 → Int) : Bool :=
  (0 ≤ fds 0) && (0 ≤ fds 2) && (0 ≤ fds 4)

/-- Parent-side state of a `StreamController` that matters for stdin:
the 12 pipe descriptors (negative = closed) and the bytes that have
actually reached the channel-0 pipe (a log of successful `write(2)`
calls on `fds[1]`). -/
structure SCState where
  fds : Fin 12 → Int
  stdinPipeBytes : List Nat

/-- `StreamController::closeStdin`: if `fds[1] >= 0`, close it and store
`-1`; otherwise do nothing. -/
def SCState.closeStdin (sc : SCState) : SCState :=
  if 0 ≤ sc.fds 1 then
    { sc with fds := Function.update sc.fds 1 (-1) }
  else sc

/-- `StreamController::writeStdin`: `return write(pipes.fds[1], data,
size);`.  POSIX `write(2)` on a negative / closed descriptor fails with
`EBADF`, returning `-1` and transferring nothing; on an open pipe
descriptor the embedding models the successful transfer of all bytes.
Returns the `ssize_t` result and the updated state. -/
def SCState.writeStdin (sc : SCState) (data : List Nat) : Int × SCState :=
  if 0 ≤ sc.fds 1 then
    ((data.length : Int), { sc with stdinPipeBytes := sc.stdinPipeBytes ++ data })
  else (-1, sc)

/-! ## Stream drainer (src/unnamed/part_002, `StreamDrainer`) -/

/-- The observable state a `StreamDrainer` keeps besides its thread
handle and constants: its ring buffer and the `bytesTransferred_`
counter.  (`active_` is a liveness flag; the class has no further
counter fields.) -/
structure DrainerState where
  ring : RingBuffer
  bytesTransferred : Nat
  deriving Repr

/-- One successful-read iteration of `StreamDrainer::drainLoop` under
the drop policy (`dropOnOverflow_ == true`): `buffer_->write` accepts
what fits, the excess is discarded ("DROP MODE"), and
`bytesTransferred_` is increased by the full read count `n`.  Returns
the new state and the count the ring accepted. -/
def drainStepDrop (st : DrainerState) (chunk : List Nat) :
    DrainerState × Nat :=
  let r := st.ring.write chunk
  ({ ring := r.1, bytesTransferred := st.bytesTransferred + chunk.length },
   r.2)

/-! ## Wait-status decoding (src/hexstream/process.cpp)

The source calls the POSIX `WIFEXITED` / `WEXITSTATUS` / `WIFSIGNALED` /
`WTERMSIG` macros; these are embedded with their Linux bit layout
(status low 7 bits = termination signal, 0 for normal exit, 0x7f for
stopped; next 8 bits = exit status). -/

/-- `WIFEXITED(status)`: low seven bits zero. -/
def wifexited (s : Nat) : Bool := s % 128 == 0

/-- `WEXITSTATUS(status)`: bits 8..15. -/
def wexitstatus (s : Nat) : Nat := s / 256 % 256

/-- `WIFSIGNALED(status)`: low seven bits neither 0 nor 0x7f. -/
def wifsignaled (s : Nat) : Bool := s % 128 != 0 && s % 128 != 127

/-- `WTERMSIG(status)`: low seven bits. -/
def wtermsig (s : Nat) : Nat := s % 128

/-- The status decoding in `HexStreamProcess::wait`:
`WIFEXITED → WEXITSTATUS`, `WIFSIGNALED → 128 + WTERMSIG`, else `-1`. -/
def decodeWaitStatus (s : Nat) : Int :=
  if wifexited s then (wexitstatus s : Int)
  else if wifsignaled s then 128 + (wtermsig s : Int)
  else -1

/-- The status decoding in `JobManager::reapJob`: the same two mapped
cases, but with no `else` branch — a status that is neither an exit nor
a signal termination leaves the job's stored exit code unchanged. -/
def reapDecode (prior : Int) (s : Nat) : Int :=
  if wifexited s then (wexitstatus s : Int)
  else if wifsignaled s then 128 + (wtermsig s : Int)
  else prior

/-! ## HexStreamProcess wait state (src/hexstream/process.cpp) -/

/-- The fields of `HexStreamProcess` that `wait()` touches: the
`running_` flag and the stored `exitCode_`. -/
structure ProcState where
  running : Bool
  exitCode : Int
  deriving Repr, DecidableEq

/-- The constructor `HexStreamProcess::HexStreamProcess`:
`exitCode_(-1), running_(false)`. -/
def ProcState.init : ProcState := { running := false, exitCode := -1 }

/-- `HexStreamProcess::wait()`.  `status` is the wait status the kernel
reports for the child when one is running (the `waitpid` out-param).
Returns the exit code returned to the caller, the state afterwards, and
whether the registered exit callback was invoked.  The early return
`if (!running_) return exitCode_;` happens before any blocking and
before the callback. -/
def ProcState.wait (p : ProcState) (status : Nat) :
    Int × ProcState × Bool :=
  if p.running = false then (p.exitCode, p, false)
  else
    let ec := decodeWaitStatus status
    (ec, { running := false, exitCode := ec }, true)

/-! ## JobManager::foreground (src/hexstream/process.cpp, job_control
part) -/

/-- `SIGCONT` on Linux. -/
def SIGCONT : Nat := 18

/-- The per-job record fields `JobManager::foreground` touches. -/
structure JobRec where
  state : JobState
  pgid : Int
  hasSavedModes : Bool
  savedModes : Nat
  streamsForeground : Bool
  deriving Repr, DecidableEq

/-- The manager state `JobManager::foreground` can read or modify: the
job table, whether a controlling terminal exists, the terminal's owning
process group and modes, the log of signals sent (`kill(-pgid, sig)`)
and the status-change notifications issued. -/
structure MgrState where
  jobs : List (Nat × JobRec)
  hasTty : Bool
  ttyOwner : Int
  ttyModes : Nat
  signalsSent : List (Int × Nat)
  notifications : List (Nat × JobState × JobState)
  deriving Repr, DecidableEq

/-- Replace the record stored for `jobId` (the in-place mutation of the
job the manager holds by pointer). -/
def MgrState.setJob (m : MgrState) (jobId : Nat) (j : JobRec) : MgrState :=
  { m with jobs := m.jobs.map (fun p => if p.1 = jobId then (p.1, j) else p) }

/-- `JobManager::foreground(jobId)`, translated line by line: look the
job up; compute `transition(current, FG_CMD)`; on an invalid transition
return `false` with nothing changed; otherwise send `SIGCONT` if the job
was stopped, transfer the terminal and restore saved modes when a TTY
exists, set the stream controller to foreground mode, store the new
state and notify observers. -/
def MgrState.foreground (m : MgrState) (jobId : Nat) : Bool × MgrState :=
  match m.jobs.lookup jobId with
  | none => (false, m)
  | some job =>
    let current := job.state
    let result := StateMachine.transition current JobEvent.FG_CMD
    if result.valid = false then (false, m)
    else
      let m1 :=
        if current = JobState.STOPPED then
          { m with signalsSent := m.signalsSent ++ [(-job.pgid, SIGCONT)] }
        else m
      let m2 :=
        if m1.hasTty then
          { m1 with ttyOwner := job.pgid,
                    ttyModes := if job.hasSavedModes then job.savedModes
                                else m1.ttyModes }
        else m1
      let job' := { job with streamsForeground := true,
                             state := result.newState }
      let m3 := { (m2.setJob jobId job') with
                  notifications :=
                    m2.notifications ++ [(jobId, current, result.newState)] }
      (true, m3)

end AriaShell

open AriaShell

/-- `size_t` subtraction does not wrap when `b ≤ a < 2^64`. -/
theorem sizeSub_eq_sub {a b : Nat} (hb : b ≤ a) (ha : a < 2 ^ 64) :
    sizeSub a b = a - b := by
  simp only [sizeSub]
  omega

/-- A well-formed ring never reports more than `capacity - 1` available
bytes. -/
theorem RingBuffer.available_lt {rb : RingBuffer} (h : rb.WF) :
    rb.available + 1 ≤ rb.capacity := by
  obtain ⟨hr, hw, hpos, hcap, _⟩ := h
  unfold RingBuffer.available
  split
  · omega
  · rw [sizeSub_eq_sub (by omega) (by omega)]
    have : rb.capacity - rb.readPos + rb.writePos < 2 ^ 64 := by omega
    rw [Nat.mod_eq_of_lt this]
    omega

/-- On a well-formed ring, `freeSpace` is `capacity - 1 - available`. -/
theorem RingBuffer.freeSpace_eq {rb : RingBuffer} (h : rb.WF) :
    rb.freeSpace = rb.capacity - 1 - rb.available := by
  have hav := RingBuffer.available_lt h
  obtain ⟨h1, h2, h3, hcap, h5⟩ := h
  have hin : sizeSub rb.capacity rb.available
      = rb.capacity - rb.available :=
    sizeSub_eq_sub (by omega) (by omega)
  unfold RingBuffer.freeSpace
  rw [hin, sizeSub_eq_sub (by omega) (by omega)]
  omega

/-- `copyInto` preserves the length when the copy stays in bounds. -/
theorem copyInto_length {dst src : List Nat} {pos : Nat}
    (h : pos + src.length ≤ dst.length) :
    (copyInto dst pos src).length = dst.length := by
  simp only [copyInto, List.length_append, List.length_take,
    List.length_drop]
  omega

/-- Two in-bound `copyInto` passes (the two-part wrap copy) preserve the
length. -/
theorem copyInto_length2 {dst src1 src2 : List Nat} {p1 : Nat}
    (h1 : p1 + src1.length ≤ dst.length)
    (h2 : src2.length ≤ dst.length) :
    (copyInto (copyInto dst p1 src1) 0 src2).length = dst.length := by
  have hx : (copyInto dst p1 src1).length = dst.length :=
    copyInto_length h1
  rw [copyInto_length (by rw [hx]; omega), hx]

/-- The `available` field computation with the (non-occurring) 64-bit
wrap removed, for well-formed rings. -/
theorem RingBuffer.available_eq {rb : RingBuffer} (h : rb.WF) :
    rb.available =
      if rb.readPos ≤ rb.writePos then rb.writePos - rb.readPos
      else rb.capacity - rb.readPos + rb.writePos := by
  obtain ⟨h1, h2, h3, hcap, h5⟩ := h
  unfold RingBuffer.available
  split
  · rfl
  · rw [sizeSub_eq_sub (by omega) (by omega)]
    exact Nat.mod_eq_of_lt (by omega)

/-- On a well-formed ring, `write` accepts exactly what fits
(`min(len, capacity - 1 - available)`), grows `available` by exactly the
accepted count, and preserves capacity and well-formedness. -/
theorem RingBuffer.write_spec (rb : RingBuffer) (data : List Nat)
    (h : rb.WF) :
    (rb.write data).2 = min data.length (rb.capacity - 1 - rb.available) ∧
    (rb.write data).1.available = rb.available + (rb.write data).2 ∧
    (rb.write data).1.capacity = rb.capacity ∧
    (rb.write data).1.WF := by
  have hfree := RingBuffer.freeSpace_eq h
  have hav := RingBuffer.available_lt h
  have havail := RingBuffer.available_eq h
  obtain ⟨h1, h2, h3, hcap, h5⟩ := h
  by_cases ht : min data.length rb.freeSpace = 0
  · have hw : rb.write data = (rb, 0) := by
      simp only [RingBuffer.write]
      rw [if_pos ht]
    rw [hw]
    dsimp only
    exact ⟨by omega, by omega, rfl, h1, h2, h3, hcap, h5⟩
  · have ht1 : 1 ≤ min data.length rb.freeSpace :=
      Nat.one_le_iff_ne_zero.mpr ht
    have htf : min data.length rb.freeSpace
        ≤ rb.capacity - 1 - rb.available := by
      rw [hfree] at ht1 ⊢
      exact Nat.min_le_right _ _
    have htd : min data.length rb.freeSpace ≤ data.length :=
      Nat.min_le_left _ _
    have hsw : sizeSub rb.capacity rb.writePos
        = rb.capacity - rb.writePos :=
      sizeSub_eq_sub (by omega) (by omega)
    have hsnd : (rb.write data).2 = min data.length rb.freeSpace := by
      simp only [RingBuffer.write]
      rw [if_neg ht]
    have hrp : (rb.write data).1.readPos = rb.readPos := by
      simp only [RingBuffer.write]
      rw [if_neg ht]
    have hcp : (rb.write data).1.capacity = rb.capacity := by
      simp only [RingBuffer.write]
      rw [if_neg ht]
    have hwp : (rb.write data).1.writePos
        = (rb.writePos + min data.length rb.freeSpace)
            % 2 ^ 64 % rb.capacity := by
      simp only [RingBuffer.write]
      rw [if_neg ht]
    have hw64 : (rb.writePos + min data.length rb.freeSpace) % 2 ^ 64
        = rb.writePos + min data.length rb.freeSpace :=
      Nat.mod_eq_of_lt (by omega)
    have hbl : (rb.write data).1.buffer.length = rb.capacity := by
      simp only [RingBuffer.write]
      rw [if_neg ht]
      dsimp only
      split
      · exact (copyInto_length2
          (by simp only [List.length_take]; omega)
          (by simp only [List.length_take, List.length_drop]; omega)).trans h5
      · exact (copyInto_length
          (by simp only [List.length_take]; omega)).trans h5
    have hWF2 : (rb.write data).1.WF := by
      refine ⟨?_, ?_, ?_, ?_, ?_⟩
      · rw [hrp, hcp]
        exact h1
      · rw [hwp, hcp, hw64]
        exact Nat.mod_lt _ h3
      · rw [hcp]
        exact h3
      · rw [hcp]
        exact hcap
      · rw [hbl, hcp]
    have hav2 := RingBuffer.available_eq hWF2
    rw [hrp, hwp, hcp, hw64] at hav2
    refine ⟨by rw [hsnd, hfree], ?_, hcp, hWF2⟩
    rw [hav2, hsnd]
    rcases Nat.lt_or_ge (rb.writePos + min data.length rb.freeSpace)
        rb.capacity with hwrap | hwrap
    · rw [Nat.mod_eq_of_lt hwrap]
      split_ifs at havail ⊢ <;> omega
    · have hwC : (rb.writePos + min data.length rb.freeSpace)
          % rb.capacity
          = rb.writePos + min data.length rb.freeSpace - rb.capacity := by
        rw [Nat.mod_eq_sub_mod hwrap]
        exact Nat.mod_eq_of_lt (by omega)
      rw [hwC]
      split_ifs at havail ⊢ <;> omega

/-- Folding `write` over a chunk list: the ring fills greedily, so the
final fill level is `min (available + total, capacity - 1)` and the total
accepted count is the fill-level gain. -/
theorem RingBuffer.writeAll_fold (chunks : List (List Nat)) :
    ∀ (rb : RingBuffer) (n : Nat), rb.WF →
      ((chunks.foldl
          (fun acc chunk =>
            let r := acc.1.write chunk
            (r.1, acc.2 + r.2))
          (rb, n)).1.available
        = min (rb.available + sumLens chunks) (rb.capacity - 1)) ∧
      ((chunks.foldl
          (fun acc chunk =>
            let r := acc.1.write chunk
            (r.1, acc.2 + r.2))
          (rb, n)).2
        = n + (min (rb.available + sumLens chunks) (rb.capacity - 1)
                - rb.available)) ∧
      ((chunks.foldl
          (fun acc chunk =>
            let r := acc.1.write chunk
            (r.1, acc.2 + r.2))
          (rb, n)).1.capacity = rb.capacity) ∧
      (chunks.foldl
          (fun acc chunk =>
            let r := acc.1.write chunk
            (r.1, acc.2 + r.2))
          (rb, n)).1.WF := by
  induction chunks with
  | nil =>
    intro rb n h
    have hav := RingBuffer.available_lt h
    simp only [List.foldl_nil, sumLens, List.map_nil, List.sum_nil]
    exact ⟨by omega, by omega, by trivial, h⟩
  | cons c cs ih =>
    intro rb n h
    have hav := RingBuffer.available_lt h
    obtain ⟨hacc, havp, hcapp, hwf2⟩ := RingBuffer.write_spec rb c h
    obtain ⟨ih1, ih2, ih3, ih4⟩ := ih (rb.write c).1 (n + (rb.write c).2)
      hwf2
    have hsum : sumLens (c :: cs) = c.length + sumLens cs := by
      simp [sumLens]
    simp only [List.foldl_cons]
    refine ⟨?_, ?_, ?_, ?_⟩
    · rw [ih1, havp, hacc, hcapp, hsum]
      omega
    · rw [ih2, havp, hacc, hcapp, hsum]
      omega
    · rw [ih3, hcapp]
    · exact ih4

/-- `writeAll` on a well-formed ring with no intervening reads accepts
exactly `min (total produced, capacity - 1)` bytes beyond the starting
fill level. -/
theorem RingBuffer.writeAll_spec (rb : RingBuffer)
    (chunks : List (List Nat)) (h : rb.WF) :
    (rb.writeAll chunks).1.available
      = min (rb.available + sumLens chunks) (rb.capacity - 1) ∧
    (rb.writeAll chunks).2
      = min (rb.available + sumLens chunks) (rb.capacity - 1)
          - rb.available := by
  obtain ⟨e1, e2, _, _⟩ := RingBuffer.writeAll_fold chunks rb 0 h
  exact ⟨e1, by rw [RingBuffer.writeAll, e2]; omega⟩

/-- A freshly constructed ring is well-formed (for positive capacity
below the `size_t` wrap guard). -/
theorem RingBuffer.init_WF {C : Nat} (hC : 0 < C) (hC2 : C < 2 ^ 63) :
    (RingBuffer.init C).WF :=
  ⟨hC, hC, hC, hC2, List.length_replicate C 0⟩

/-- A freshly constructed ring reports nothing available. -/
theorem RingBuffer.init_available (C : Nat) :
    (RingBuffer.init C).available = 0 := by
  simp [RingBuffer.init, RingBuffer.available]

/-- A freshly constructed ring has `capacity - 1` free bytes. -/
theorem RingBuffer.init_freeSpace (C : Nat) (hC : 0 < C)
    (hC2 : C < 2 ^ 63) :
    (RingBuffer.init C).freeSpace = C - 1 := by
  rw [RingBuffer.freeSpace_eq (RingBuffer.init_WF hC hC2),
    RingBuffer.init_available]
  rfl

/-- Writing into a freshly constructed ring: the accepted prefix lands at
the front of the storage (no wrap can occur from position 0) and the
write position advances to the accepted count. -/
theorem RingBuffer.write_init_eq (C : Nat) (data : List Nat) (hC : 0 < C)
    (hC2 : C < 2 ^ 63) (hT : 1 ≤ min data.length (C - 1)) :
    (RingBuffer.init C).write data
      = ({ buffer := data.take (min data.length (C - 1))
             ++ (List.replicate C 0).drop (min data.length (C - 1)),
           readPos := 0,
           writePos := min data.length (C - 1),
           capacity := C },
         min data.length (C - 1)) := by
  have ecap : (RingBuffer.init C).capacity = C := rfl
  have e1 := RingBuffer.init_available C
  have e2 : (RingBuffer.init C).freeSpace = C - 1 := by
    rw [RingBuffer.freeSpace_eq (RingBuffer.init_WF hC hC2), e1, ecap]
    omega
  have elen : (data.take (min data.length (C - 1))).length
      = min data.length (C - 1) := by
    simp only [List.length_take]
    omega
  simp only [RingBuffer.write, e2]
  rw [if_neg (by omega : ¬ (min data.length (C - 1) = 0))]
  dsimp only [RingBuffer.init]
  have efp : min (min data.length (C - 1)) (sizeSub C 0)
      = min data.length (C - 1) := by
    rw [sizeSub_eq_sub (Nat.zero_le C) (by omega)]
    omega
  rw [efp, if_neg (Nat.lt_irrefl _)]
  simp only [copyInto, List.take_zero, List.nil_append, Nat.zero_add,
    elen]
  rw [Nat.mod_eq_of_lt (by omega : min data.length (C - 1) < 2 ^ 64),
    Nat.mod_eq_of_lt (by omega : min data.length (C - 1) < C)]

/-- Reading at least the whole fill of a ring whose data occupies
positions `0..T`: yields the storage prefix of length `T` and empties the
ring. -/
theorem RingBuffer.read_front (buf : List Nat) (T C m : Nat)
    (hT : 1 ≤ T) (hTC : T < C) (hm : T ≤ m) (hC2 : C < 2 ^ 63) :
    (RingBuffer.mk buf 0 T C).read m
      = (RingBuffer.mk buf T T C, buf.take T) := by
  have eav : (RingBuffer.mk buf 0 T C).available = T := by
    simp [RingBuffer.available]
  simp only [RingBuffer.read, eav]
  rw [if_neg (by omega : ¬ (min m T = 0))]
  have emin : min m T = T := by omega
  have efp : min (min m T) (sizeSub C 0) = T := by
    rw [sizeSub_eq_sub (Nat.zero_le C) (by omega)]
    omega
  rw [efp, emin, if_neg (Nat.lt_irrefl _)]
  simp only [List.drop_zero, List.append_nil, Nat.zero_add]
  rw [Nat.mod_eq_of_lt (by omega : T < 2 ^ 64),
    Nat.mod_eq_of_lt (by omega : T < C)]

/-- C1: For every state and every one of the ten events of the §4.G table
(`TIMEOUT` is not a table column), `StateMachine::transition` returns
exactly the table's target state on a filled cell, and an invalid result
(`valid = false`) on every "—" cell.  Determinism holds by construction:
`transition` is a pure function of its two arguments. -/
theorem transition_matches_spec_table (s : JobState) (e : JobEvent)
    (h : e ≠ JobEvent.TIMEOUT) :
    (∀ t, specTransitionTable s e = some t →
      StateMachine.transition s e = TransitionResult.ok t) ∧
    (specTransitionTable s e = none →
      (StateMachine.transition s e).valid = false) := by
  revert h
  cases s <;> cases e <;> decide

/-- Witness for C1: at (Background, TtyRead) the table gives Stopped and
the code agrees; at (Terminated, CtrlC) the cell is "—" and the code
reports invalid. -/
theorem transition_matches_spec_table_witness :
    JobEvent.TTY_READ ≠ JobEvent.TIMEOUT ∧
    specTransitionTable JobState.BACKGROUND JobEvent.TTY_READ
      = some JobState.STOPPED ∧
    StateMachine.transition JobState.BACKGROUND JobEvent.TTY_READ
      = TransitionResult.ok JobState.STOPPED ∧
    specTransitionTable JobState.TERMINATED JobEvent.CTRL_C = none ∧
    (StateMachine.transition JobState.TERMINATED JobEvent.CTRL_C).valid
      = false :=
  ⟨by decide, by decide,
   (transition_matches_spec_table JobState.BACKGROUND JobEvent.TTY_READ
     (by decide)).1 JobState.STOPPED (by decide),
   by decide,
   (transition_matches_spec_table JobState.TERMINATED JobEvent.CTRL_C
     (by decide)).2 (by decide)⟩

/-- C5: Writing any byte sequence into a freshly constructed (empty) ring
of capacity `C` accepts at most `len(data)` bytes; any subsequent read of
at least the accepted count yields exactly the accepted prefix of the
data, in order, and leaves the ring reporting `available() = 0`. -/
theorem ringBuffer_write_read_roundtrip (C : Nat) (data : List Nat)
    (hC : 0 < C) (hC2 : C < 2 ^ 63) :
    ((RingBuffer.init C).write data).2 ≤ data.length ∧
    ∀ m, ((RingBuffer.init C).write data).2 ≤ m →
      (((RingBuffer.init C).write data).1.read m).2
        = data.take ((RingBuffer.init C).write data).2 ∧
      (((RingBuffer.init C).write data).1.read m).1.available = 0 := by
  by_cases hz : min data.length (C - 1) = 0
  · have hfz : min data.length ((RingBuffer.init C).freeSpace) = 0 := by
      rw [RingBuffer.init_freeSpace C hC hC2]
      exact hz
    have hw0 : (RingBuffer.init C).write data = (RingBuffer.init C, 0) := by
      simp only [RingBuffer.write]
      rw [if_pos hfz]
    rw [hw0]
    dsimp only
    refine ⟨Nat.zero_le _, fun m _ => ?_⟩
    have hrd : (RingBuffer.init C).read m = (RingBuffer.init C, []) := by
      simp [RingBuffer.read, RingBuffer.init_available]
    rw [hrd]
    dsimp only
    exact ⟨by simp, RingBuffer.init_available C⟩
  · have hT : 1 ≤ min data.length (C - 1) :=
      Nat.one_le_iff_ne_zero.mpr hz
    have elen : (data.take (min data.length (C - 1))).length
        = min data.length (C - 1) := by
      simp only [List.length_take]
      omega
    have hw := RingBuffer.write_init_eq C data hC hC2 hT
    rw [hw]
    dsimp only
    refine ⟨by omega, fun m hm => ?_⟩
    have hrd := RingBuffer.read_front
      (data.take (min data.length (C - 1))
        ++ (List.replicate C 0).drop (min data.length (C - 1)))
      (min data.length (C - 1)) C m hT (by omega) hm hC2
    rw [hrd]
    dsimp only
    constructor
    · rw [List.take_left' elen]
    · simp [RingBuffer.available]

/-- Witness for C5 at `C = 4`, `data = [1, 2, 3]`, read limit 5. -/
theorem ringBuffer_write_read_roundtrip_witness :
    (0 < 4 ∧ (4 : Nat) < 2 ^ 63 ∧
      ((RingBuffer.init 4).write [1, 2, 3]).2 ≤ 5) ∧
    ((RingBuffer.init 4).write [1, 2, 3]).2 ≤ [1, 2, 3].length ∧
    (((RingBuffer.init 4).write [1, 2, 3]).1.read 5).2
      = [1, 2, 3].take ((RingBuffer.init 4).write [1, 2, 3]).2 ∧
    (((RingBuffer.init 4).write [1, 2, 3]).1.read 5).1.available = 0 :=
  ⟨⟨by decide, by decide, by decide⟩,
   (ringBuffer_write_read_roundtrip 4 [1, 2, 3] (by decide) (by decide)).1,
   ((ringBuffer_write_read_roundtrip 4 [1, 2, 3] (by decide)
      (by decide)).2 5 (by decide)).1,
   ((ringBuffer_write_read_roundtrip 4 [1, 2, 3] (by decide)
      (by decide)).2 5 (by decide)).2⟩

/-- C6 counterexample: producing exactly 1 MiB into the unread channel-3
ring leaves `2^20 - 1` bytes accepted, not `min(P, 1 MiB) = 2^20` as the
claim states (one slot is reserved to distinguish full from empty). -/
theorem streamController_unread_fill_cex :
    ¬ ((RingBuffer.init (1024 * 1024)).writeAll
        [List.replicate (2 ^ 20) 42]).2
      = min (2 ^ 20) (1024 * 1024) := by
  have hWF := RingBuffer.init_WF
    (C := 1024 * 1024) (by norm_num) (by norm_num)
  obtain ⟨e1, e2⟩ := RingBuffer.writeAll_spec (RingBuffer.init (1024 * 1024))
    [List.replicate (2 ^ 20) 42] hWF
  rw [RingBuffer.init_available] at e2
  have ecap : (RingBuffer.init (1024 * 1024)).capacity = 1024 * 1024 := rfl
  rw [ecap] at e2
  have hsum : sumLens [List.replicate (2 ^ 20) 42] = 2 ^ 20 := by
    simp only [sumLens, List.map_cons, List.map_nil, List.sum_cons,
      List.sum_nil, List.length_replicate, Nat.add_zero]
  rw [hsum] at e2
  rw [e2]
  norm_num

/-- C6 (amended): every ring buffer the `StreamController` constructor
allocates has capacity exactly `1024 * 1024 = 2^20 ≥ 1 MiB`, and
successive writes totalling `P` bytes into an unread ring accept exactly
`min(P, 1 MiB - 1)` bytes (one slot of the capacity is reserved to
distinguish a full ring from an empty one). -/
theorem streamController_capacity_and_unread_fill
    (chunks : List (List Nat)) :
    streamControllerBuffers.map RingBuffer.capacity
      = List.replicate 6 (1024 * 1024) ∧
    (2 : Nat) ^ 20 ≤ 1024 * 1024 ∧
    ((RingBuffer.init (1024 * 1024)).writeAll chunks).2
      = min (sumLens chunks) (1024 * 1024 - 1) ∧
    ((RingBuffer.init (1024 * 1024)).writeAll chunks).1.available
      = min (sumLens chunks) (1024 * 1024 - 1) := by
  have hWF := RingBuffer.init_WF
    (C := 1024 * 1024) (by norm_num) (by norm_num)
  obtain ⟨e1, e2⟩ := RingBuffer.writeAll_spec (RingBuffer.init (1024 * 1024))
    chunks hWF
  rw [RingBuffer.init_available] at e1 e2
  have ecap : (RingBuffer.init (1024 * 1024)).capacity = 1024 * 1024 := rfl
  rw [ecap] at e1 e2
  have hmap : streamControllerBuffers.map RingBuffer.capacity
      = List.replicate 6 (1024 * 1024) := by
    simp only [streamControllerBuffers, List.map_replicate]
    rw [ecap]
  refine ⟨hmap, by norm_num, ?_, ?_⟩
  · rw [e2]
    omega
  · rw [e1]
    omega

/-- C3 counterexample: a drop-policy drainer reading 5 bytes into a ring
with 3 free slots accepts 3 (so `produced - observed = 2`), yet the only
counter the drainer state carries, `bytesTransferred_`, advances by the
full 5 bytes — no counter advances by `produced - observed`. -/
theorem drainer_drop_counter_cex :
    (drainStepDrop { ring := RingBuffer.init 4, bytesTransferred := 0 }
      [7, 8, 9, 10, 11]).2 = 3 ∧
    (drainStepDrop { ring := RingBuffer.init 4, bytesTransferred := 0 }
      [7, 8, 9, 10, 11]).1.bytesTransferred = 5 ∧
    ((5 : Nat) ≠ [7, 8, 9, 10, 11].length - 3) := by
  refine ⟨?_, ?_, by decide⟩ <;> decide

/-- C3 (amended): under the drop policy the ring never gains more bytes
than were produced (`observed ≤ produced`), the excess is silently
discarded, and the drainer's only counter, `bytesTransferred_`, advances
by the full produced count — the drainer maintains no drop counter. -/
theorem drainer_drop_policy_spec (st : DrainerState) (chunk : List Nat)
    (h : st.ring.WF) :
    (drainStepDrop st chunk).2 ≤ chunk.length ∧
    (drainStepDrop st chunk).1.ring.available
      = st.ring.available + (drainStepDrop st chunk).2 ∧
    (drainStepDrop st chunk).1.bytesTransferred
      = st.bytesTransferred + chunk.length := by
  obtain ⟨hacc, hav, _, _⟩ := RingBuffer.write_spec st.ring chunk h
  dsimp only [drainStepDrop]
  exact ⟨by omega, hav, rfl⟩

/-- Witness for C3's amended statement: drainer over a fresh 4-byte ring
fed 5 bytes. -/
theorem drainer_drop_policy_spec_witness :
    (drainStepDrop { ring := RingBuffer.init 4, bytesTransferred := 2 }
      [7, 8, 9, 10, 11]).2 ≤ 5 ∧
    (drainStepDrop { ring := RingBuffer.init 4, bytesTransferred := 2 }
      [7, 8, 9, 10, 11]).1.bytesTransferred = 7 :=
  ⟨(drainer_drop_policy_spec
      { ring := RingBuffer.init 4, bytesTransferred := 2 }
      [7, 8, 9, 10, 11]
      (RingBuffer.init_WF (by decide) (by decide))).1,
   (drainer_drop_policy_spec
      { ring := RingBuffer.init 4, bytesTransferred := 2 }
      [7, 8, 9, 10, 11]
      (RingBuffer.init_WF (by decide) (by decide))).2.2⟩

/-- C2: the six `dup2` calls of `setupChild` (src/unnamed/part_002).  For
logical descriptors 1, 2, 3, 5 the write end of the corresponding pipe is
duplicated, as §4.B requires; but for logical descriptors 0 and 4 the
code duplicates `pipes.fds[1]` and `pipes.fds[9]` — the *write* ends of
pipes 0 and 4 — instead of the read ends `pipes.fds[0]` and
`pipes.fds[8]`.  The closing loop does close all 12 originals. -/
theorem setupChild_dup_directions :
    setupChildDup2Calls
      = (List.range 6).map (fun i => (setupChildSrc i, i)) ∧
    setupChildSrc 0 = pipeWriteEnd 0 ∧ setupChildSrc 0 ≠ pipeReadEnd 0 ∧
    setupChildSrc 4 = pipeWriteEnd 4 ∧ setupChildSrc 4 ≠ pipeReadEnd 4 ∧
    setupChildSrc 1 = pipeWriteEnd 1 ∧ setupChildSrc 2 = pipeWriteEnd 2 ∧
    setupChildSrc 3 = pipeWriteEnd 3 ∧ setupChildSrc 5 = pipeWriteEnd 5 ∧
    setupChildCloseLoop (List.replicate 12 true)
      = List.replicate 12 false := by
  refine ⟨?_, ?_, ?_, ?_, ?_, ?_, ?_, ?_, ?_, ?_⟩ <;> decide

/-- C8: after `closeStdin`, any `writeStdin` returns the error value `-1`
and no byte reaches the channel-0 endpoint. -/
theorem writeStdin_after_closeStdin (sc : SCState) (data : List Nat) :
    (sc.closeStdin.writeStdin data).1 = -1 ∧
    (sc.closeStdin.writeStdin data).2.stdinPipeBytes
      = sc.stdinPipeBytes := by
  unfold SCState.closeStdin SCState.writeStdin
  by_cases h : (0 : Int) ≤ sc.fds 1
  · simp [h, Function.update_same]
  · simp [h]

/-- C9: `HexStreamPipes::isValid` is exactly the conjunction "slots 0, 2
and 4 are open" (the read ends of the pipes for channels 0, 1, 2); it
does not depend on the other nine slots, so a pipe set whose telemetry
and data pipes all failed to open is still reported valid. -/
theorem hexStreamPipes_isValid_iff (f g : Fin 12 → Int)
    (h0 : f 0 = g 0) (h2 : f 2 = g 2) (h4 : f 4 = g 4) :
    (hexStreamPipesIsValid f = true
      ↔ (0 ≤ f 0 ∧ 0 ≤ f 2 ∧ 0 ≤ f 4)) ∧
    hexStreamPipesIsValid f = hexStreamPipesIsValid g ∧
    hexStreamPipesIsValid
      (fun i => if i = 0 ∨ i = 2 ∨ i = 4 then 3 else -1) = true := by
  refine ⟨?_, ?_, by decide⟩
  · simp [hexStreamPipesIsValid, and_assoc]
  · unfold hexStreamPipesIsValid
    rw [h0, h2, h4]

/-- Witness for C9: two descriptor arrays agreeing on slots 0, 2, 4. -/
theorem hexStreamPipes_isValid_iff_witness :
    (hexStreamPipesIsValid (fun _ => 3) = true
      ↔ (0 ≤ (3 : Int) ∧ 0 ≤ (3 : Int) ∧ 0 ≤ (3 : Int))) ∧
    hexStreamPipesIsValid (fun _ => 3)
      = hexStreamPipesIsValid
          (fun i => if i = 0 ∨ i = 2 ∨ i = 4 then 3 else -1) := by
  have h := hexStreamPipes_isValid_iff (fun _ => 3)
    (fun i => if i = 0 ∨ i = 2 ∨ i = 4 then 3 else -1)
    (by decide) (by decide) (by decide)
  exact ⟨h.1, h.2.1⟩

/-- C4 counterexample: a child that exits normally with its own status
200 produces wait status `200 * 256`; `wait` returns 200, which is not in
0..127.  And `reapJob` has no `-1`-otherwise branch: on a status that is
neither an exit nor a signal termination (e.g. the stop status 0x7f) it
leaves the stored exit code (initially 0) unchanged, not `-1`. -/
theorem wait_exit_code_cex :
    decodeWaitStatus (200 * 256) = 200 ∧
    ¬ (decodeWaitStatus (200 * 256) ≤ 127) ∧
    reapDecode 0 127 = 0 ∧ reapDecode 0 127 ≠ -1 := by
  refine ⟨?_, ?_, ?_, ?_⟩ <;> decide

/-- C4 (amended): `wait`'s decoding returns the child's own exit status
(in 0..255) for a normal exit, `128 + n` for termination by signal `n`,
and `-1` when the status is neither; `reapJob` applies the same two
mapped cases but leaves the stored exit code unchanged otherwise. -/
theorem wait_exit_code_convention (s : Nat) (prior : Int) :
    (wifexited s = true →
      decodeWaitStatus s = (wexitstatus s : Int) ∧
      0 ≤ decodeWaitStatus s ∧ decodeWaitStatus s ≤ 255 ∧
      reapDecode prior s = decodeWaitStatus s) ∧
    (wifexited s = false → wifsignaled s = true →
      decodeWaitStatus s = 128 + (wtermsig s : Int) ∧
      reapDecode prior s = decodeWaitStatus s) ∧
    (wifexited s = false → wifsignaled s = false →
      decodeWaitStatus s = -1 ∧ reapDecode prior s = prior) := by
  refine ⟨fun h => ?_, fun h1 h2 => ?_, fun h1 h2 => ?_⟩
  · have hb : wexitstatus s ≤ 255 := by
      unfold wexitstatus
      omega
    unfold decodeWaitStatus reapDecode
    rw [if_pos h, if_pos h]
    refine ⟨rfl, by positivity, by exact_mod_cast hb, rfl⟩
  · unfold decodeWaitStatus reapDecode
    rw [h1, h2]
    simp
  · unfold decodeWaitStatus reapDecode
    rw [h1, h2]
    simp

/-- Witness for C4's amended statement at the three concrete statuses
0 (exit 0), 9 (killed by SIGKILL) and 127 (stopped). -/
theorem wait_exit_code_convention_witness :
    decodeWaitStatus 0 = 0 ∧ decodeWaitStatus 9 = 137 ∧
    decodeWaitStatus 127 = -1 ∧ reapDecode 5 127 = 5 :=
  ⟨by have h := ((wait_exit_code_convention 0 5).1 (by decide)).1
      rw [h]; decide,
   by have h := ((wait_exit_code_convention 9 5).2.1 (by decide)
        (by decide)).1
      rw [h]; decide,
   ((wait_exit_code_convention 127 5).2.2 (by decide)
      (by decide)).1,
   ((wait_exit_code_convention 127 5).2.2 (by decide)
      (by decide)).2⟩

/-- C10: `wait()` with no running child returns the stored exit code at
once, changes nothing and does not invoke the exit callback; a fresh
process (constructor state) stores `-1`; and after a wait on a running
child completes, a second `wait()` returns the same exit code again,
without the callback. -/
theorem procWait_not_running (p q : ProcState) (s s2 : Nat)
    (hp : p.running = false) (hq : q.running = true) :
    (p.wait s).1 = p.exitCode ∧ (p.wait s).2.1 = p ∧
    (p.wait s).2.2 = false ∧
    (ProcState.init.wait s).1 = -1 ∧ ProcState.init.running = false ∧
    ((q.wait s).2.1.wait s2).1 = (q.wait s).1 ∧
    ((q.wait s).2.1.wait s2).2.1 = (q.wait s).2.1 ∧
    ((q.wait s).2.1.wait s2).2.2 = false := by
  simp [ProcState.wait, ProcState.init, hp, hq]

/-- Witness for C10 at concrete states. -/
theorem procWait_not_running_witness :
    (({ running := false, exitCode := 7 } : ProcState).wait 0).1 = 7 ∧
    ((({ running := true, exitCode := -1 } : ProcState).wait 0).2.1.wait
        51200).1
      = (({ running := true, exitCode := -1 } : ProcState).wait 0).1 := by
  have h := procWait_not_running { running := false, exitCode := 7 }
    { running := true, exitCode := -1 } 0 51200 rfl rfl
  exact ⟨h.1, h.2.2.2.2.2.1⟩

/-- C7: `JobManager::foreground` on a job whose state is Terminated
computes an invalid transition and returns `false` with the entire
manager state (job table, signals, terminal owner and modes,
notifications) unchanged. -/
theorem foreground_terminated_noop (m : MgrState) (jobId : Nat)
    (job : JobRec) (hlook : m.jobs.lookup jobId = some job)
    (hterm : job.state = JobState.TERMINATED) :
    m.foreground jobId = (false, m) := by
  unfold MgrState.foreground
  rw [hlook]
  simp [hterm, StateMachine.transition, TransitionResult.fail]

/-- Witness for C7: a one-job table whose job 1 is Terminated. -/
theorem foreground_terminated_noop_witness :
    MgrState.foreground
      { jobs := [(1, { state := JobState.TERMINATED, pgid := 42,
                       hasSavedModes := false, savedModes := 0,
                       streamsForeground := false })],
        hasTty := true, ttyOwner := 0, ttyModes := 0,
        signalsSent := [], notifications := [] } 1
      = (false,
         { jobs := [(1, { state := JobState.TERMINATED, pgid := 42,
                          hasSavedModes := false, savedModes := 0,
                          streamsForeground := false })],
           hasTty := true, ttyOwner := 0, ttyModes := 0,
           signalsSent := [], notifications := [] }) :=
  foreground_terminated_noop _ 1
    { state := JobState.TERMINATED, pgid := 42, hasSavedModes := false,
      savedModes := 0, streamsForeground := false }
    (by decide) rfl
